import Mathlib

/-!
Verification of the contact-book program in `task_py_7.py`.

The development shallowly embeds the program's core: the `Phone` and
`Birthday` validated fields, `Record` with its phone/birthday operations,
and `AddressBook` (a `UserDict`, i.e. an insertion-ordered string-keyed
dictionary) with its upcoming-birthday algorithm.

Python `datetime.date` values are embedded as year/month/day triples of
naturals; `date.toordinal` and `date.weekday` are embedded by the same
formulas CPython uses (days-before-year + days-before-month + day, and
Monday = 0).  Fallible Python constructors (which raise `ValueError`) are
embedded as `Except String` values carrying CPython's error messages.
-/

deriving instance DecidableEq for Except

namespace Task7

/-- A Python `datetime.date` as a plain year/month/day triple. -/
structure PyDate where
  year : Nat
  month : Nat
  day : Nat
  deriving DecidableEq

/-- Gregorian leap-year test, as in CPython `datetime._is_leap`. -/
def isLeap (y : Nat) : Bool :=
  decide ((y % 4 = 0 ∧ ¬ y % 100 = 0) ∨ y % 400 = 0)

/-- Day counts of the months, CPython `datetime._DAYS_IN_MONTH`. -/
def dimTable (m : Nat) : Nat :=
  match m with
  | 1 => 31 | 2 => 28 | 3 => 31 | 4 => 30 | 5 => 31 | 6 => 30
  | 7 => 31 | 8 => 31 | 9 => 30 | 10 => 31 | 11 => 30 | 12 => 31
  | _ => 0

/-- CPython `datetime._days_in_month`. -/
def daysInMonth (y m : Nat) : Nat :=
  dimTable m + (if m = 2 ∧ isLeap y then 1 else 0)

/-- Cumulative day counts before each month, CPython `datetime._days_before_month`
(the leap flag is passed explicitly). -/
def daysBeforeMonth (L : Bool) (m : Nat) : Nat :=
  (match m with
   | 1 => 0 | 2 => 31 | 3 => 59 | 4 => 90 | 5 => 120 | 6 => 151
   | 7 => 181 | 8 => 212 | 9 => 243 | 10 => 273 | 11 => 304 | 12 => 334
   | _ => 0)
  + (if L ∧ 3 ≤ m then 1 else 0)

/-- Structural well-formedness of a date, without the year-9999 upper bound
(used for lemmas about day arithmetic, which is insensitive to that bound). -/
def validMD (d : PyDate) : Bool :=
  decide (1 ≤ d.year ∧ 1 ≤ d.month ∧ d.month ≤ 12 ∧ 1 ≤ d.day ∧ d.day ≤ daysInMonth d.year d.month)

/-- The `datetime.date(year, month, day)` constructor: validates the three
fields in CPython's order and raises `ValueError` (here: `Except.error` with
CPython's message) on the first failing check. -/
def mkDate (y m d : Nat) : Except String PyDate :=
  if ¬ (1 ≤ y ∧ y ≤ 9999) then Except.error ("year " ++ toString y ++ " is out of range")
  else if ¬ (1 ≤ m ∧ m ≤ 12) then Except.error ("month must be in 1..12")
  else if ¬ (1 ≤ d ∧ d ≤ daysInMonth y m) then Except.error ("day is out of range for month")
  else Except.ok (PyDate.mk y m d)

/-- `date.replace(year=y)`: rebuilds the date with the new year, revalidating
all fields (so a Feb 29 date raises for a non-leap target year). -/
def replaceYear (d : PyDate) (y : Nat) : Except String PyDate :=
  mkDate y d.month d.day

/-- Python `date` comparison `<`: lexicographic on (year, month, day). -/
def PyDate.lt (a b : PyDate) : Bool :=
  decide (a.year < b.year ∨ (a.year = b.year ∧
    (a.month < b.month ∨ (a.month = b.month ∧ a.day < b.day))))

/-- Leap days among the years before `y`, as in CPython `datetime._days_before_year`. -/
def leapsBefore (y : Nat) : Nat :=
  (y - 1) / 4 - (y - 1) / 100 + (y - 1) / 400

/-- `date.toordinal()`: day number in the proleptic Gregorian calendar with
0001-01-01 as day 1 (CPython `datetime._ymd2ord`). -/
def toOrdinal (d : PyDate) : Nat :=
  365 * (d.year - 1) + leapsBefore d.year + daysBeforeMonth (isLeap d.year) d.month + d.day

/-- `date.weekday()`: Monday = 0 ... Sunday = 6. -/
def weekday (d : PyDate) : Nat :=
  (toOrdinal d + 6) % 7

/-- The calendar successor of a date. -/
def nextDay (d : PyDate) : PyDate :=
  if d.day < daysInMonth d.year d.month then PyDate.mk d.year d.month (d.day + 1)
  else if d.month < 12 then PyDate.mk d.year (d.month + 1) 1
  else PyDate.mk (d.year + 1) 1 1

/-- `date + timedelta(days=n)` for `n ≥ 0`: advance the calendar date `n` times. -/
def addDays (d : PyDate) : Nat → PyDate
  | 0 => d
  | n + 1 => addDays (nextDay d) n

/-- Zero-padded two-digit decimal rendering (`%d`, `%m` of `strftime`). -/
def pad2c (n : Nat) : List Char :=
  [Char.ofNat (48 + n / 10 % 10), Char.ofNat (48 + n % 10)]

/-- Four-digit decimal rendering of the year (`%Y` of `strftime`; exact for
the years 1000-9999, zero-padded below that). -/
def pad4c (n : Nat) : List Char :=
  [Char.ofNat (48 + n / 1000 % 10), Char.ofNat (48 + n / 100 % 10),
   Char.ofNat (48 + n / 10 % 10), Char.ofNat (48 + n % 10)]

/-- `date.strftime("%d.%m.%Y")`. -/
def renderDate (d : PyDate) : String :=
  String.mk (pad2c d.day ++ ('.' :: pad2c d.month) ++ ('.' :: pad4c d.year))

/-- `lo ≤ c.toNat ≤ hi`: a code-point range test (used both for the
`isdigit` table and for the character classes of `_strptime`'s regexes). -/
def isBetween (c : Char) (lo hi : Nat) : Bool :=
  decide (lo ≤ c.toNat ∧ c.toNat ≤ hi)

/-- Python's `str.isdigit` character property: true exactly on the Unicode
characters with numeric type Decimal or Digit.  The ranges below are the
complete table of CPython 3.11 (Unicode 14): the ASCII digits first, then
superscripts, the decimal-digit blocks of the world's scripts (Arabic-Indic,
Devanagari, Bengali, ..., Thai, ..., fullwidth, and the supplementary-plane
blocks), and the Digit-typed characters (subscripts, circled digits, ...). -/
def pyIsDigitChar (c : Char) : Bool :=
  isBetween c 48 57 || isBetween c 178 179 ||
  isBetween c 185 185 || isBetween c 1632 1641 ||
  isBetween c 1776 1785 || isBetween c 1984 1993 ||
  isBetween c 2406 2415 || isBetween c 2534 2543 ||
  isBetween c 2662 2671 || isBetween c 2790 2799 ||
  isBetween c 2918 2927 || isBetween c 3046 3055 ||
  isBetween c 3174 3183 || isBetween c 3302 3311 ||
  isBetween c 3430 3439 || isBetween c 3558 3567 ||
  isBetween c 3664 3673 || isBetween c 3792 3801 ||
  isBetween c 3872 3881 || isBetween c 4160 4169 ||
  isBetween c 4240 4249 || isBetween c 4969 4977 ||
  isBetween c 6112 6121 || isBetween c 6160 6169 ||
  isBetween c 6470 6479 || isBetween c 6608 6618 ||
  isBetween c 6784 6793 || isBetween c 6800 6809 ||
  isBetween c 6992 7001 || isBetween c 7088 7097 ||
  isBetween c 7232 7241 || isBetween c 7248 7257 ||
  isBetween c 8304 8304 || isBetween c 8308 8313 ||
  isBetween c 8320 8329 || isBetween c 9312 9320 ||
  isBetween c 9332 9340 || isBetween c 9352 9360 ||
  isBetween c 9450 9450 || isBetween c 9461 9469 ||
  isBetween c 9471 9471 || isBetween c 10102 10110 ||
  isBetween c 10112 10120 || isBetween c 10122 10130 ||
  isBetween c 42528 42537 || isBetween c 43216 43225 ||
  isBetween c 43264 43273 || isBetween c 43472 43481 ||
  isBetween c 43504 43513 || isBetween c 43600 43609 ||
  isBetween c 44016 44025 || isBetween c 65296 65305 ||
  isBetween c 66720 66729 || isBetween c 68160 68163 ||
  isBetween c 68912 68921 || isBetween c 69216 69224 ||
  isBetween c 69714 69722 || isBetween c 69734 69743 ||
  isBetween c 69872 69881 || isBetween c 69942 69951 ||
  isBetween c 70096 70105 || isBetween c 70384 70393 ||
  isBetween c 70736 70745 || isBetween c 70864 70873 ||
  isBetween c 71248 71257 || isBetween c 71360 71369 ||
  isBetween c 71472 71481 || isBetween c 71904 71913 ||
  isBetween c 72016 72025 || isBetween c 72784 72793 ||
  isBetween c 73040 73049 || isBetween c 73120 73129 ||
  isBetween c 92768 92777 || isBetween c 92864 92873 ||
  isBetween c 93008 93017 || isBetween c 120782 120831 ||
  isBetween c 123200 123209 || isBetween c 123632 123641 ||
  isBetween c 125264 125273 || isBetween c 127232 127242 ||
  isBetween c 130032 130041

/-- An ASCII decimal digit (the character class named by the specification). -/
def isAsciiDigit (c : Char) : Bool :=
  decide (48 ≤ c.toNat ∧ c.toNat ≤ 57)

/-- Python `str.isdigit()`: nonempty and every character has the digit property. -/
def pyStrIsDigit (s : String) : Bool :=
  !s.data.isEmpty && s.data.all pyIsDigitChar

/-- `Phone.__init__`: accept iff `value.isdigit() and len(value) == 10`,
otherwise raise `ValueError("Phone must be 10 digits")`. -/
def Phone.init (value : String) : Except String String :=
  if pyStrIsDigit value && value.length == 10 then Except.ok value
  else Except.error ("Phone must be 10 digits")

/-- Numeric value of an ASCII digit character. -/
def digitVal (c : Char) : Nat :=
  c.toNat - 48

/-- The two-character alternatives of `_strptime`'s day regex
`3[01]|[12]\d|0[1-9]|[1-9]`. -/
def day2ok (c1 c2 : Char) : Bool :=
  (c1 = '3' && isBetween c2 48 49) ||
  (isBetween c1 49 50 && isBetween c2 48 57) ||
  (c1 = '0' && isBetween c2 49 57)

/-- `%d` of `strptime` (CPython 3.11): the regex
`3[0-1]|[1-2]\d|0[1-9]|[1-9]| [1-9]` — one or two digits denoting 1-31
(zero padding optional) or, by the final alternative, a space-padded single
digit 1-9.  The two-character digit alternatives are tried first, as in the
regex; no backtracking is needed: every two-character alternative ends in a
digit, the one-character alternative must be followed by the literal `'.'`
here (not a digit), and the space alternative is the only one that can
match a leading space. -/
def parseDayField : List Char → Option (Nat × List Char)
  | c1 :: c2 :: rest =>
    if day2ok c1 c2 then some (digitVal c1 * 10 + digitVal c2, rest)
    else if isBetween c1 49 57 then some (digitVal c1, c2 :: rest)
    else if c1 = ' ' && isBetween c2 49 57 then some (digitVal c2, rest)
    else none
  | [c1] => if isBetween c1 49 57 then some (digitVal c1, []) else none
  | [] => none

/-- The two-character alternatives of `_strptime`'s month regex
`1[0-2]|0[1-9]|[1-9]`. -/
def month2ok (c1 c2 : Char) : Bool :=
  (c1 = '1' && isBetween c2 48 50) ||
  (c1 = '0' && isBetween c2 49 57)

/-- `%m` of `strptime`: one or two digits denoting 1-12, zero padding optional. -/
def parseMonthField : List Char → Option (Nat × List Char)
  | c1 :: c2 :: rest =>
    if month2ok c1 c2 then some (digitVal c1 * 10 + digitVal c2, rest)
    else if isBetween c1 49 57 then some (digitVal c1, c2 :: rest)
    else none
  | [c1] => if isBetween c1 49 57 then some (digitVal c1, []) else none
  | [] => none

/-- `%Y` of `strptime`: exactly four digits (regex `\d\d\d\d`). -/
def parseYear4 : List Char → Option (Nat × List Char)
  | a :: b :: c :: d :: rest =>
    if isBetween a 48 57 && isBetween b 48 57 && isBetween c 48 57 && isBetween d 48 57 then
      some (((digitVal a * 10 + digitVal b) * 10 + digitVal c) * 10 + digitVal d, rest)
    else none
  | _ => none

/-- The format regex of `strptime(value, "%d.%m.%Y")`: day, literal dot,
month, literal dot, four-digit year, end of string (`_strptime` raises on
unconverted trailing data). -/
def parseDMY (cs : List Char) : Option (Nat × Nat × Nat) :=
  match parseDayField cs with
  | some (d, '.' :: cs1) =>
    match parseMonthField cs1 with
    | some (m, '.' :: cs2) =>
      match parseYear4 cs2 with
      | some (y, []) => some (y, m, d)
      | _ => none
    | _ => none
  | _ => none

/-- `datetime.strptime(s, "%d.%m.%Y").date()`: parse the three fields, then
build the date (which checks it is a real calendar date). -/
def pyStrptimeDMY (s : String) : Option PyDate :=
  match parseDMY s.data with
  | some (y, m, d) => (mkDate y m d).toOption
  | none => none

/-- `Birthday.__init__`: any `ValueError` from parsing or date construction
is replaced by `ValueError("Invalid date format. Use DD.MM.YYYY")`. -/
def Birthday.init (value : String) : Except String PyDate :=
  match pyStrptimeDMY value with
  | some d => Except.ok d
  | none => Except.error ("Invalid date format. Use DD.MM.YYYY")

/-- A `Record`: the `Name`/`Phone`/`Birthday` field wrappers of the source
only carry a `value`, so the embedding stores the values directly — the name
string, the list of validated phone strings, the optional birthday date. -/
structure Record where
  name : String
  phones : List String
  birthday : Option PyDate
  deriving DecidableEq

/-- `Record.add_phone`: validate, then append.  The `Phone` constructor
raises before the append, so on error the record is unchanged (here: an
`Except.error` carrying the message). -/
def Record.add_phone (r : Record) (s : String) : Except String Record :=
  match Phone.init s with
  | Except.ok v => Except.ok (Record.mk r.name (r.phones ++ [v]) r.birthday)
  | Except.error e => Except.error e

/-- `Record.remove_phone`: the loop finds the first phone object whose value
equals `s` and `list.remove` deletes exactly that object (a `Phone` has
default identity equality), so the net effect is to drop the first
occurrence; absent values leave the list untouched and raise nothing. -/
def removePhoneList : List String → String → List String
  | [], _ => []
  | p :: rest, s => if p = s then rest else p :: removePhoneList rest s

/-- `Record.remove_phone` lifted to the record. -/
def Record.remove_phone (r : Record) (s : String) : Record :=
  Record.mk r.name (removePhoneList r.phones s) r.birthday

/-- `Record.edit_phone`'s loop over the phone list: at the first phone equal
to `oldp`, validate `newp` (raising `ValueError("Phone must be 10 digits")`
if invalid, before any mutation) and overwrite that phone's value; if the
loop finishes without a match, raise `ValueError("Old phone not found")`. -/
def editPhoneList : List String → String → String → Except String (List String)
  | [], _, _ => Except.error ("Old phone not found")
  | p :: rest, oldp, newp =>
    if p = oldp then
      match Phone.init newp with
      | Except.ok v => Except.ok (v :: rest)
      | Except.error e => Except.error e
    else
      match editPhoneList rest oldp newp with
      | Except.ok l => Except.ok (p :: l)
      | Except.error e => Except.error e

/-- `Record.edit_phone` lifted to the record. -/
def Record.edit_phone (r : Record) (oldp newp : String) : Except String Record :=
  match editPhoneList r.phones oldp newp with
  | Except.ok l => Except.ok (Record.mk r.name l r.birthday)
  | Except.error e => Except.error e

/-- `Record.add_birthday`: validate, then overwrite the stored birthday. -/
def Record.add_birthday (r : Record) (s : String) : Except String Record :=
  match Birthday.init s with
  | Except.ok d => Except.ok (Record.mk r.name r.phones (some d))
  | Except.error e => Except.error e

/-- The `AddressBook`'s `UserDict` storage: an insertion-ordered association
list with (by invariant) unique keys, as a Python `dict` iterates. -/
abbrev Book : Type := List (String × Record)

/-- `dict.__setitem__`: overwrite the value in place if the key is present
(keeping its insertion position), otherwise append a new entry. -/
def dictSet : Book → String → Record → Book
  | [], k, v => [(k, v)]
  | (k', v') :: rest, k, v =>
    if k' = k then (k, v) :: rest else (k', v') :: dictSet rest k v

/-- `dict.get`: the value at the first entry with the key, if any. -/
def dictFind : Book → String → Option Record
  | [], _ => none
  | (k', v') :: rest, k => if k' = k then some v' else dictFind rest k

/-- `dict.pop(k, None)`: drop the entry with the key, no-op if absent. -/
def dictDelete : Book → String → Book
  | [], _ => []
  | (k', v') :: rest, k => if k' = k then rest else (k', v') :: dictDelete rest k

/-- Mutating the record object stored under a key in place (Python aliases
the stored record; here the entry's value is rewritten). -/
def dictMapAt (b : Book) (k : String) (f : Record → Record) : Book :=
  b.map (fun p => if p.1 = k then (p.1, f p.2) else p)

/-- `AddressBook.add_record`: `self.data[record.name.value] = record`. -/
def AddressBook.add_record (b : Book) (r : Record) : Book :=
  dictSet b r.name r

/-- `AddressBook.find`: `self.data.get(name)`. -/
def AddressBook.find (b : Book) (name : String) : Option Record :=
  dictFind b name

/-- `AddressBook.delete`: `self.data.pop(name, None)`. -/
def AddressBook.delete (b : Book) (name : String) : Book :=
  dictDelete b name

/-- `AddressBook.find_next_weekday`: add `weekday - start.weekday()` days,
first shifted up by 7 if that offset is not positive. -/
def find_next_weekday (start : PyDate) (wd : Nat) : PyDate :=
  addDays start (Int.toNat
    (if (wd : Int) - (weekday start : Int) ≤ 0
     then (wd : Int) - (weekday start : Int) + 7
     else (wd : Int) - (weekday start : Int)))

/-- `AddressBook.adjust_for_weekend`: weekend dates (weekday index 5 or 6)
are moved to the next Monday (weekday 0), other dates are returned as is. -/
def adjust_for_weekend (b : PyDate) : PyDate :=
  if 5 ≤ weekday b then find_next_weekday b 0 else b

/-- The projected birthday of the loop body of `get_upcoming_birthdays`:
replace the year with `today.year`, and if the result is strictly before
`today` replace it with `today.year + 1` instead.  Either `replace` can
raise (Feb 29 onto a non-leap year), which propagates. -/
def codeThisYear (bd today : PyDate) : Except String PyDate :=
  match replaceYear bd today.year with
  | Except.error e => Except.error e
  | Except.ok p =>
    if PyDate.lt p today then replaceYear bd (today.year + 1) else Except.ok p

/-- An element of the list returned by `get_upcoming_birthdays`. -/
structure UpcomingEntry where
  name : String
  congratulation_date : String
  deriving DecidableEq

/-- The body of `get_upcoming_birthdays`'s loop for one record: skip records
without a birthday; otherwise project the birthday, include the record iff
`0 <= (thisYear - today).days <= days`, and emit the weekend-adjusted
congratulation date rendered as `DD.MM.YYYY`. -/
def processRecord (today : PyDate) (days : Nat) (r : Record) : Except String (Option UpcomingEntry) :=
  match r.birthday with
  | none => Except.ok none
  | some bd =>
    match codeThisYear bd today with
    | Except.error e => Except.error e
    | Except.ok ty =>
      if 0 ≤ (toOrdinal ty : Int) - (toOrdinal today : Int) ∧
         (toOrdinal ty : Int) - (toOrdinal today : Int) ≤ (days : Int) then
        Except.ok (some (UpcomingEntry.mk r.name (renderDate (adjust_for_weekend ty))))
      else Except.ok none

/-- The loop of `get_upcoming_birthdays` over the stored records, in
iteration order; an exception from any record aborts the whole call. -/
def collectUpcoming (today : PyDate) (days : Nat) : List Record → Except String (List UpcomingEntry)
  | [] => Except.ok []
  | r :: rest =>
    match processRecord today days r with
    | Except.error e => Except.error e
    | Except.ok none => collectUpcoming today days rest
    | Except.ok (some e) =>
      match collectUpcoming today days rest with
      | Except.error e2 => Except.error e2
      | Except.ok l => Except.ok (e :: l)

/-- `AddressBook.get_upcoming_birthdays(days)`, with `today` made an
explicit reference-date argument (the source reads `date.today()`). -/
def get_upcoming_birthdays (b : Book) (today : PyDate) (days : Nat) : Except String (List UpcomingEntry) :=
  collectUpcoming today days (b.map (fun p => p.2))

/-- The `add_contact` handler under its `@input_error` wrapper: look the
name up; when absent, create an empty record and insert it into the book
FIRST; then validate and append the phone, converting a `ValueError` into
an `"Error: ..."` message (at which point the empty record is already
stored).  Returns the displayed message and the resulting book. -/
def add_contact (name phone : String) (book : Book) : String × Book :=
  match AddressBook.find book name with
  | some _ =>
    if phone ≠ "" then
      match Phone.init phone with
      | Except.ok v => ("Contact updated.", dictMapAt book name (fun r => Record.mk r.name (r.phones ++ [v]) r.birthday))
      | Except.error e => ("Error: " ++ e, book)
    else ("Contact updated.", book)
  | none =>
    let book1 := AddressBook.add_record book (Record.mk name [] none)
    if phone ≠ "" then
      match Phone.init phone with
      | Except.ok v => ("Contact added.", dictMapAt book1 name (fun r => Record.mk r.name (r.phones ++ [v]) r.birthday))
      | Except.error e => ("Error: " ++ e, book1)
    else ("Contact added.", book1)

/-- The record mutations the dispatcher can reach (the operations of the
specification's §4.2); none of them touches the record's name, and the
fallible ones raise before mutating, leaving the record unchanged. -/
inductive RecOp where
  | addPhone (s : String)
  | removePhone (s : String)
  | editPhone (oldp newp : String)
  | addBirthday (s : String)

/-- Apply a record operation; a raised `ValueError` leaves the record as it
was (the exception fires before any field is written). -/
def applyRecOp (r : Record) : RecOp → Record
  | RecOp.addPhone s =>
    match Record.add_phone r s with
    | Except.ok r' => r'
    | Except.error _ => r
  | RecOp.removePhone s => Record.remove_phone r s
  | RecOp.editPhone oldp newp =>
    match Record.edit_phone r oldp newp with
    | Except.ok r' => r'
    | Except.error _ => r
  | RecOp.addBirthday s =>
    match Record.add_birthday r s with
    | Except.ok r' => r'
    | Except.error _ => r

/-- A step on the directory: insert a record, delete a name, or mutate (via
a `find`-returned alias) the record stored under a name. -/
inductive BookOp where
  | add (r : Record)
  | del (n : String)
  | mutate (n : String) (op : RecOp)

/-- Apply a directory step. -/
def applyBookOp (b : Book) : BookOp → Book
  | BookOp.add r => AddressBook.add_record b r
  | BookOp.del n => AddressBook.delete b n
  | BookOp.mutate n op => dictMapAt b n (fun r => applyRecOp r op)

/-- The directory state after a sequence of steps from the empty book. -/
def runOps (ops : List BookOp) : Book :=
  ops.foldl applyBookOp []

/-- The name-keying invariant of the directory: every stored entry's value
has the entry's key as its name. -/
def keyedByName (b : Book) : Bool :=
  b.all (fun p => (p.2).name == p.1)

/-! ## Phone validation (claim C4) -/

theorem pyIsDigitChar_of_ascii (c : Char) (h : c.toNat < 128) :
    pyIsDigitChar c = isAsciiDigit c := by
  rw [Bool.eq_iff_iff]
  simp only [pyIsDigitChar, isBetween, isAsciiDigit, Bool.or_eq_true, decide_eq_true_eq]
  omega

theorem all_pyIsDigit_of_ascii : ∀ l : List Char, (∀ c ∈ l, c.toNat < 128) →
    l.all pyIsDigitChar = l.all isAsciiDigit
  | [], _ => rfl
  | c :: l, h => by
    rw [List.all_cons, List.all_cons, pyIsDigitChar_of_ascii c (h c (by simp)),
      all_pyIsDigit_of_ascii l (fun d hd => h d (by simp [hd]))]

theorem phone_cond_iff (s : String) :
    (pyStrIsDigit s && s.length == 10) = true ↔
      (s.length = 10 ∧ s.data.all pyIsDigitChar = true) := by
  unfold pyStrIsDigit
  constructor
  · intro h
    simp only [Bool.and_eq_true, beq_iff_eq, Bool.not_eq_true'] at h
    exact ⟨h.2, h.1.2⟩
  · intro h
    simp only [Bool.and_eq_true, beq_iff_eq, Bool.not_eq_true']
    refine ⟨⟨?_, h.2⟩, h.1⟩
    have hl : s.data.length = 10 := h.1
    cases hd : s.data with
    | nil => rw [hd] at hl; simp at hl
    | cons a l => rfl

theorem phone_ok_iff (s : String) :
    Phone.init s = Except.ok s ↔ (s.length = 10 ∧ s.data.all pyIsDigitChar = true) := by
  unfold Phone.init
  split_ifs with h
  · exact ⟨fun _ => (phone_cond_iff s).mp h, fun _ => rfl⟩
  · constructor
    · intro hc; exact absurd hc (by simp)
    · intro hc; exact absurd ((phone_cond_iff s).mpr hc) h

/-- Claim C4 (amended): `Phone` creation succeeds iff the string has exactly
10 characters, each satisfying Python's `str.isdigit` digit property — which
is broader than the ASCII digits the claim names; on all-ASCII strings the
claim's characterization does hold, and every rejected string gets the
`"Phone must be 10 digits"` error. -/
theorem claim4_phone_validation :
    (∀ s : String, Phone.init s = Except.ok s ↔
      (s.length = 10 ∧ s.data.all pyIsDigitChar = true))
    ∧ (∀ s : String, ¬ (s.length = 10 ∧ s.data.all pyIsDigitChar = true) →
        Phone.init s = Except.error ("Phone must be 10 digits"))
    ∧ (∀ s : String, (∀ c ∈ s.data, c.toNat < 128) →
        (Phone.init s = Except.ok s ↔
          (s.length = 10 ∧ s.data.all isAsciiDigit = true))) := by
  refine ⟨phone_ok_iff, fun s h => ?_, fun s hs => ?_⟩
  · unfold Phone.init
    rw [if_neg (fun hc => h ((phone_cond_iff s).mp hc))]
  · rw [phone_ok_iff s, all_pyIsDigit_of_ascii s.data hs]

/-- Claim C4, witness: the all-ASCII ten-digit string `"0123456789"` is
accepted, via the theorem's ASCII clause. -/
theorem claim4_phone_validation_witness :
    Phone.init ("0123456789") = Except.ok ("0123456789") :=
  (claim4_phone_validation.2.2 "0123456789" (by decide)).mpr (by decide)

/-- Claim C4, counterexample: the ten Arabic-Indic digits U+0660 form a
string of length 10 that Python's `isdigit` accepts, so `Phone` creation
succeeds although the string contains no ASCII digit at all — refuting
"succeeds only if all characters are ASCII decimal digits". -/
theorem claim4_ascii_counterexample :
    Phone.init (String.mk (List.replicate 10 (Char.ofNat 1632))) =
      Except.ok (String.mk (List.replicate 10 (Char.ofNat 1632)))
    ∧ (String.mk (List.replicate 10 (Char.ofNat 1632))).length = 10
    ∧ (String.mk (List.replicate 10 (Char.ofNat 1632))).data.all isAsciiDigit = false := by
  refine ⟨rfl, rfl, by decide⟩

/-- The further reaches of the `isdigit` table in action: ten Bengali digits
(U+09E6) and ten Thai digits (U+0E50) are each accepted as a phone, exactly
as the Python program accepts them. -/
theorem phone_accepts_nonascii_digits :
    Phone.init (String.mk (List.replicate 10 (Char.ofNat 2534)))
      = Except.ok (String.mk (List.replicate 10 (Char.ofNat 2534)))
    ∧ Phone.init (String.mk (List.replicate 10 (Char.ofNat 3664)))
      = Except.ok (String.mk (List.replicate 10 (Char.ofNat 3664))) :=
  ⟨rfl, rfl⟩

/-! ## Feb 29 projection (claim C3) -/

/-- Claim C3: the claim says the year-replacement step never fails, but on a
Feb 29 birthday and a non-leap reference year `date.replace` raises
`ValueError("day is out of range for month")`, which aborts the whole
`get_upcoming_birthdays` call. -/
theorem claim3_feb29_projection_raises :
    get_upcoming_birthdays
        [("Leap", Record.mk "Leap" [] (some (PyDate.mk 2020 2 29)))]
        (PyDate.mk 2025 6 1) 7
      = Except.error ("day is out of range for month") := rfl

/-! ## remove_phone (claim C7) -/

theorem removePhoneList_of_not_mem : ∀ (l : List String) (s : String), s ∉ l →
    removePhoneList l s = l
  | [], _, _ => rfl
  | p :: rest, s, h => by
    have hp : ¬ p = s := fun he => h (by simp [he])
    simp [removePhoneList, hp,
      removePhoneList_of_not_mem rest s (fun hm => h (List.mem_cons_of_mem _ hm))]

theorem removePhoneList_append (l1 l2 : List String) (s : String) (h : s ∉ l1) :
    removePhoneList (l1 ++ s :: l2) s = l1 ++ l2 := by
  induction l1 with
  | nil => simp [removePhoneList]
  | cons p rest ih =>
    have hp : ¬ p = s := fun he => h (by simp [he])
    simp [removePhoneList, hp, ih (fun hm => h (List.mem_cons_of_mem _ hm))]

/-- Claim C7: `remove_phone` is a no-op (and raises nothing — it is total by
type) when the value is absent, and otherwise removes exactly the first
occurrence, keeping every phone before it and every one after it, including
later duplicates. -/
theorem claim7_remove_phone :
    (∀ (r : Record) (s : String), s ∉ r.phones → Record.remove_phone r s = r)
    ∧ (∀ (r : Record) (s : String) (l1 l2 : List String), s ∉ l1 →
        r.phones = l1 ++ s :: l2 →
        Record.remove_phone r s = Record.mk r.name (l1 ++ l2) r.birthday) := by
  constructor
  · intro r s h
    unfold Record.remove_phone
    rw [removePhoneList_of_not_mem r.phones s h]
  · intro r s l1 l2 h hp
    unfold Record.remove_phone
    rw [hp, removePhoneList_append l1 l2 s h]

/-- Claim C7, witness: removing an absent value is a no-op; removing a
duplicated value drops only its first occurrence. -/
theorem claim7_remove_phone_witness :
    Record.remove_phone (Record.mk "A" ["1111111111"] none) "2222222222"
      = Record.mk "A" ["1111111111"] none
    ∧ Record.remove_phone
        (Record.mk "A" ["5555555555", "7777777777", "5555555555"] none) "5555555555"
      = Record.mk "A" ["7777777777", "5555555555"] none :=
  ⟨claim7_remove_phone.1 _ _ (by decide),
   claim7_remove_phone.2 _ _ [] ["7777777777", "5555555555"] (by decide) rfl⟩

/-! ## edit_phone (claim C6) -/

theorem editPhoneList_not_mem : ∀ (l : List String) (oldp newp : String), oldp ∉ l →
    editPhoneList l oldp newp = Except.error ("Old phone not found")
  | [], _, _, _ => rfl
  | p :: rest, oldp, newp, h => by
    have hp : ¬ p = oldp := fun he => h (by simp [he])
    simp [editPhoneList, hp,
      editPhoneList_not_mem rest oldp newp (fun hm => h (List.mem_cons_of_mem _ hm))]

theorem editPhoneList_invalid : ∀ (l : List String) (oldp newp e : String), oldp ∈ l →
    Phone.init newp = Except.error e → editPhoneList l oldp newp = Except.error e
  | [], _, _, _, h, _ => absurd h (List.not_mem_nil _)
  | p :: rest, oldp, newp, e, h, he => by
    by_cases hp : p = oldp
    · simp [editPhoneList, hp, he]
    · have hm : oldp ∈ rest := by
        rcases List.mem_cons.mp h with h1 | h2
        · exact absurd h1.symm hp
        · exact h2
      simp [editPhoneList, hp, editPhoneList_invalid rest oldp newp e hm he]

theorem editPhoneList_ok : ∀ (l1 l2 : List String) (oldp newp : String), oldp ∉ l1 →
    Phone.init newp = Except.ok newp →
    editPhoneList (l1 ++ oldp :: l2) oldp newp = Except.ok (l1 ++ newp :: l2)
  | [], l2, oldp, newp, _, he => by simp [editPhoneList, he]
  | p :: rest, l2, oldp, newp, h, he => by
    have hp : ¬ p = oldp := fun hq => h (by simp [hq])
    simp [editPhoneList, hp,
      editPhoneList_ok rest l2 oldp newp (fun hm => h (List.mem_cons_of_mem _ hm)) he]

/-- Claim C6: `edit_phone` raises `"Old phone not found"` when no phone
matches; with a match but an invalid replacement it propagates the phone
validation error (the record unchanged — the embedding returns no record on
error, mirroring the exception firing before the assignment); with a match
and a valid replacement it overwrites exactly the first matching phone in
place, keeping its position and every other phone. -/
theorem claim6_edit_phone :
    ∀ (r : Record) (oldp newp : String),
      (oldp ∉ r.phones →
        Record.edit_phone r oldp newp = Except.error ("Old phone not found"))
      ∧ (∀ e, oldp ∈ r.phones → Phone.init newp = Except.error e →
          Record.edit_phone r oldp newp = Except.error e)
      ∧ (∀ l1 l2, oldp ∉ l1 → r.phones = l1 ++ oldp :: l2 →
          Phone.init newp = Except.ok newp →
          Record.edit_phone r oldp newp
            = Except.ok (Record.mk r.name (l1 ++ newp :: l2) r.birthday)) := by
  intro r oldp newp
  refine ⟨fun h => ?_, fun e hm he => ?_, fun l1 l2 h1 hp he => ?_⟩
  · unfold Record.edit_phone
    rw [editPhoneList_not_mem r.phones oldp newp h]
  · unfold Record.edit_phone
    rw [editPhoneList_invalid r.phones oldp newp e hm he]
  · unfold Record.edit_phone
    rw [hp, editPhoneList_ok l1 l2 oldp newp h1 he]

/-- Claim C6, witness: the specification's worked example on a record with
phones `["1111111111"]`, in all three scenarios. -/
theorem claim6_edit_phone_witness :
    Record.edit_phone (Record.mk "A" ["1111111111"] none) "2222222222" "3333333333"
      = Except.error ("Old phone not found")
    ∧ Record.edit_phone (Record.mk "A" ["1111111111"] none) "1111111111" "invalid"
      = Except.error ("Phone must be 10 digits")
    ∧ Record.edit_phone (Record.mk "A" ["1111111111"] none) "1111111111" "3333333333"
      = Except.ok (Record.mk "A" ["3333333333"] none) :=
  ⟨(claim6_edit_phone _ _ _).1 (by decide),
   (claim6_edit_phone _ _ _).2.1 "Phone must be 10 digits" (by decide) (by decide),
   (claim6_edit_phone _ _ _).2.2 [] [] (by decide) rfl (by decide)⟩

/-! ## add_record (claim C8) -/

theorem dictFind_dictSet_self : ∀ (b : Book) (k : String) (v : Record),
    dictFind (dictSet b k v) k = some v
  | [], k, v => by simp [dictSet, dictFind]
  | (k', v') :: rest, k, v => by
    by_cases h : k' = k
    · simp [dictSet, dictFind, h]
    · simp [dictSet, dictFind, h, dictFind_dictSet_self rest k v]

theorem dictFind_dictSet_other : ∀ (b : Book) (k n : String) (v : Record), n ≠ k →
    dictFind (dictSet b k v) n = dictFind b n
  | [], k, n, v, h => by
    have h' : ¬ k = n := fun he => h he.symm
    simp [dictSet, dictFind, h']
  | (k', v') :: rest, k, n, v, h => by
    by_cases hk : k' = k
    · rw [show dictSet ((k', v') :: rest) k v = (k, v) :: rest from by simp [dictSet, hk]]
      have h1 : ¬ k = n := fun he => h he.symm
      have h2 : ¬ k' = n := by rw [hk]; exact h1
      simp [dictFind, h1, h2]
    · rw [show dictSet ((k', v') :: rest) k v = (k', v') :: dictSet rest k v from by
        simp [dictSet, hk]]
      by_cases hn : k' = n
      · simp [dictFind, hn]
      · simp [dictFind, hn, dictFind_dictSet_other rest k n v h]

/-- Claim C8: `add_record` stores the record under its own name; looking the
name up afterwards yields exactly the new record (whatever record, phones or
birthday were there before are gone — full replacement, no merge), and every
other name's lookup is untouched. -/
theorem claim8_add_record :
    (∀ (b : Book) (r : Record),
      AddressBook.find (AddressBook.add_record b r) r.name = some r)
    ∧ (∀ (b : Book) (r : Record) (n : String), n ≠ r.name →
        AddressBook.find (AddressBook.add_record b r) n = AddressBook.find b n) :=
  ⟨fun b r => dictFind_dictSet_self b r.name r,
   fun b r n h => dictFind_dictSet_other b r.name n r h⟩

/-- Claim C8, witness: re-adding the name `"Ann"` replaces a record that had
a phone and a birthday by the fresh empty one; the unrelated name `"Bob"` is
unaffected. -/
theorem claim8_add_record_witness :
    AddressBook.find
        (AddressBook.add_record
          [("Ann", Record.mk "Ann" ["1111111111"] (some (PyDate.mk 1990 1 3)))]
          (Record.mk "Ann" [] none)) "Ann"
      = some (Record.mk "Ann" [] none)
    ∧ AddressBook.find
        (AddressBook.add_record
          [("Ann", Record.mk "Ann" ["1111111111"] (some (PyDate.mk 1990 1 3)))]
          (Record.mk "Ann" [] none)) "Bob"
      = AddressBook.find
          [("Ann", Record.mk "Ann" ["1111111111"] (some (PyDate.mk 1990 1 3)))] "Bob" :=
  ⟨claim8_add_record.1 _ _, claim8_add_record.2 _ _ "Bob" (by decide)⟩

/-! ## name-keying invariant (claim C9) -/

theorem applyRecOp_name (r : Record) : ∀ op : RecOp, (applyRecOp r op).name = r.name
  | RecOp.addPhone s => by
    cases hps : Phone.init s <;> simp [applyRecOp, Record.add_phone, hps]
  | RecOp.removePhone s => rfl
  | RecOp.editPhone oldp newp => by
    cases hps : editPhoneList r.phones oldp newp <;>
      simp [applyRecOp, Record.edit_phone, hps]
  | RecOp.addBirthday s => by
    cases hbs : Birthday.init s <;> simp [applyRecOp, Record.add_birthday, hbs]

theorem keyed_dictSet : ∀ (b : Book) (k : String) (v : Record),
    (∀ p ∈ b, (p.2).name = p.1) → v.name = k →
    ∀ p ∈ dictSet b k v, (p.2).name = p.1
  | [], k, v, _, hv, p, hp => by
    simp [dictSet] at hp
    rw [hp]
    exact hv
  | (k', v') :: rest, k, v, hb, hv, p, hp => by
    unfold dictSet at hp
    by_cases h : k' = k
    · rw [if_pos h] at hp
      rcases List.mem_cons.mp hp with h1 | h2
      · rw [h1]; exact hv
      · exact hb p (List.mem_cons_of_mem _ h2)
    · rw [if_neg h] at hp
      rcases List.mem_cons.mp hp with h1 | h2
      · rw [h1]; exact hb _ (List.mem_cons_self _ _)
      · exact keyed_dictSet rest k v (fun q hq => hb q (List.mem_cons_of_mem _ hq)) hv p h2

theorem keyed_dictDelete : ∀ (b : Book) (n : String),
    (∀ p ∈ b, (p.2).name = p.1) → ∀ p ∈ dictDelete b n, (p.2).name = p.1
  | [], _, _, p, hp => absurd hp (List.not_mem_nil _)
  | (k', v') :: rest, n, hb, p, hp => by
    unfold dictDelete at hp
    by_cases h : k' = n
    · rw [if_pos h] at hp
      exact hb p (List.mem_cons_of_mem _ hp)
    · rw [if_neg h] at hp
      rcases List.mem_cons.mp hp with h1 | h2
      · rw [h1]; exact hb _ (List.mem_cons_self _ _)
      · exact keyed_dictDelete rest n (fun q hq => hb q (List.mem_cons_of_mem _ hq)) p h2

theorem keyed_dictMapAt (b : Book) (n : String) (f : Record → Record)
    (hf : ∀ r, (f r).name = r.name) (hb : ∀ p ∈ b, (p.2).name = p.1) :
    ∀ p ∈ dictMapAt b n f, (p.2).name = p.1 := by
  intro p hp
  unfold dictMapAt at hp
  rcases List.mem_map.mp hp with ⟨q, hq, he⟩
  by_cases h : q.1 = n
  · rw [if_pos h] at he
    rw [← he]
    exact (hf q.2).trans (hb q hq)
  · rw [if_neg h] at he
    rw [← he]
    exact hb q hq

theorem keyed_applyBookOp (b : Book) (op : BookOp)
    (hb : ∀ p ∈ b, (p.2).name = p.1) :
    ∀ p ∈ applyBookOp b op, (p.2).name = p.1 := by
  cases op with
  | add r => exact keyed_dictSet b r.name r hb rfl
  | del n => exact keyed_dictDelete b n hb
  | mutate n rop => exact keyed_dictMapAt b n _ (fun r => applyRecOp_name r rop) hb

theorem keyed_foldl : ∀ (ops : List BookOp) (b : Book),
    (∀ p ∈ b, (p.2).name = p.1) →
    ∀ p ∈ ops.foldl applyBookOp b, (p.2).name = p.1
  | [], _, hb => hb
  | op :: ops, b, hb => keyed_foldl ops (applyBookOp b op) (keyed_applyBookOp b op hb)

/-- Claim C9: every directory state reachable from the empty book by
insertions, deletions and in-place record mutations (the record operations,
none of which changes a record's name) satisfies the keying invariant:
each stored entry's record carries the entry's key as its name. -/
theorem claim9_keyed_invariant : ∀ ops : List BookOp, keyedByName (runOps ops) = true := by
  intro ops
  unfold keyedByName
  rw [List.all_eq_true]
  intro p hp
  rw [beq_iff_eq]
  exact keyed_foldl ops [] (by intro q hq; exact absurd hq (List.not_mem_nil _)) p hp

/-! ## add_contact non-atomicity (claim C10) -/

/-- Claim C10: when the name is new and the phone is invalid, the handler
reports the validation error, yet the freshly created empty record has
already been inserted into the book — the add is not atomic on error. -/
theorem claim10_add_contact_not_atomic :
    ∀ (book : Book) (name phone e : String),
      AddressBook.find book name = none → phone ≠ "" →
      Phone.init phone = Except.error e →
      (add_contact name phone book).1 = "Error: " ++ e
      ∧ AddressBook.find (add_contact name phone book).2 name
          = some (Record.mk name [] none) := by
  intro book name phone e hf hp he
  have hred : add_contact name phone book
      = ("Error: " ++ e, AddressBook.add_record book (Record.mk name [] none)) := by
    unfold add_contact
    rw [hf]
    simp only [if_pos hp, he]
  rw [hred]
  exact ⟨rfl, dictFind_dictSet_self book name _⟩

/-- Claim C10, witness: adding `"Dan"` with the invalid phone
`"notaphone"` to the empty book reports an error but leaves an empty
`"Dan"` record behind. -/
theorem claim10_add_contact_not_atomic_witness :
    (add_contact "Dan" "notaphone" []).1 = "Error: " ++ "Phone must be 10 digits"
    ∧ AddressBook.find (add_contact "Dan" "notaphone" []).2 "Dan"
        = some (Record.mk "Dan" [] none) :=
  claim10_add_contact_not_atomic [] "Dan" "notaphone" "Phone must be 10 digits"
    rfl (by decide) rfl

/-! ## Day arithmetic on dates -/

theorem leapsBefore_succ (y : Nat) (hy : 1 ≤ y) :
    leapsBefore (y + 1) = leapsBefore y + (if isLeap y then 1 else 0) := by
  obtain ⟨n, rfl⟩ : ∃ n, y = n + 1 := ⟨y - 1, by omega⟩
  unfold leapsBefore isLeap
  simp only [Nat.add_sub_cancel, decide_eq_true_eq]
  split_ifs with h
  · omega
  · omega

theorem daysBeforeMonth_succ (y m : Nat) (h1 : 1 ≤ m) (h2 : m ≤ 11) :
    daysBeforeMonth (isLeap y) (m + 1) = daysBeforeMonth (isLeap y) m + daysInMonth y m := by
  interval_cases m <;> cases hL : isLeap y <;>
    simp [daysBeforeMonth, daysInMonth, dimTable, hL]

theorem daysInMonth_pos (y m : Nat) (h1 : 1 ≤ m) (h2 : m ≤ 12) :
    1 ≤ daysInMonth y m := by
  unfold daysInMonth
  have : 28 ≤ dimTable m := by interval_cases m <;> simp [dimTable]
  omega

theorem toOrdinal_nextDay (d : PyDate) (h : validMD d = true) :
    toOrdinal (nextDay d) = toOrdinal d + 1 ∧ validMD (nextDay d) = true := by
  unfold validMD at h
  rw [decide_eq_true_eq] at h
  obtain ⟨hy, hm1, hm2, hd1, hd2⟩ := h
  unfold nextDay
  by_cases h1 : d.day < daysInMonth d.year d.month
  · rw [if_pos h1]
    constructor
    · show 365 * (d.year - 1) + leapsBefore d.year
          + daysBeforeMonth (isLeap d.year) d.month + (d.day + 1)
        = 365 * (d.year - 1) + leapsBefore d.year
          + daysBeforeMonth (isLeap d.year) d.month + d.day + 1
      omega
    · unfold validMD
      rw [decide_eq_true_eq]
      refine ⟨hy, hm1, hm2, ?_, ?_⟩
      · show 1 ≤ d.day + 1
        omega
      · show d.day + 1 ≤ daysInMonth d.year d.month
        omega
  · by_cases h2 : d.month < 12
    · rw [if_neg h1, if_pos h2]
      have hstep := daysBeforeMonth_succ d.year d.month hm1 (by omega)
      constructor
      · show 365 * (d.year - 1) + leapsBefore d.year
            + daysBeforeMonth (isLeap d.year) (d.month + 1) + 1
          = 365 * (d.year - 1) + leapsBefore d.year
            + daysBeforeMonth (isLeap d.year) d.month + d.day + 1
        omega
      · unfold validMD
        rw [decide_eq_true_eq]
        refine ⟨hy, ?_, ?_, ?_, ?_⟩
        · show 1 ≤ d.month + 1
          omega
        · show d.month + 1 ≤ 12
          omega
        · show 1 ≤ (1 : Nat)
          omega
        · show 1 ≤ daysInMonth d.year (d.month + 1)
          exact daysInMonth_pos d.year (d.month + 1) (by omega) (by omega)
    · rw [if_neg h1, if_neg h2]
      have hm12 : d.month = 12 := by omega
      have hdim12 : daysInMonth d.year 12 = 31 := by simp [daysInMonth, dimTable]
      have hde : d.day = 31 := by rw [hm12] at h1 hd2; omega
      have hlb := leapsBefore_succ d.year hy
      have hdbm1 : daysBeforeMonth (isLeap (d.year + 1)) 1 = 0 := by
        simp [daysBeforeMonth]
      have hdbm12 : daysBeforeMonth (isLeap d.year) 12
          = 334 + (if isLeap d.year then 1 else 0) := by
        cases hL : isLeap d.year <;> simp [daysBeforeMonth, hL]
      constructor
      · show 365 * (d.year + 1 - 1) + leapsBefore (d.year + 1)
            + daysBeforeMonth (isLeap (d.year + 1)) 1 + 1
          = 365 * (d.year - 1) + leapsBefore d.year
            + daysBeforeMonth (isLeap d.year) d.month + d.day + 1
        rw [hm12, hde, hdbm1, hdbm12]
        cases hL : isLeap d.year <;> simp only [hL, if_true, if_false] at hlb ⊢ <;> omega
      · unfold validMD
        rw [decide_eq_true_eq]
        refine ⟨?_, ?_, ?_, ?_, ?_⟩
        · show 1 ≤ d.year + 1
          omega
        · show 1 ≤ (1 : Nat)
          omega
        · show (1 : Nat) ≤ 12
          omega
        · show 1 ≤ (1 : Nat)
          omega
        · show 1 ≤ daysInMonth (d.year + 1) 1
          exact daysInMonth_pos (d.year + 1) 1 (by omega) (by omega)

theorem toOrdinal_addDays : ∀ (n : Nat) (d : PyDate), validMD d = true →
    toOrdinal (addDays d n) = toOrdinal d + n ∧ validMD (addDays d n) = true
  | 0, d, h => ⟨rfl, h⟩
  | n + 1, d, h => by
    have hnd := toOrdinal_nextDay d h
    have hrec := toOrdinal_addDays n (nextDay d) hnd.2
    refine ⟨?_, hrec.2⟩
    show toOrdinal (addDays (nextDay d) n) = toOrdinal d + (n + 1)
    rw [hrec.1, hnd.1]
    omega

/-! ## Weekend adjustment (claim C2) -/

/-- Claim C2: for a structurally valid date, `adjust_for_weekend` returns
the date unchanged when its weekday index (Monday = 0) is below 5; a
Saturday (index 5) is moved forward by exactly 2 days and a Sunday
(index 6) by exactly 1 day, in both cases landing on a Monday (index 0),
and for the Saturday the +1-day offset does not land on Monday, so the
offset used is the smallest strictly positive one reaching a Monday.
Weekday indices never exceed 6, so the three cases are exhaustive. -/
theorem claim2_adjust_for_weekend :
    ∀ b : PyDate, validMD b = true →
      (weekday b < 5 → adjust_for_weekend b = b)
      ∧ (weekday b = 5 → adjust_for_weekend b = addDays b 2
          ∧ weekday (addDays b 2) = 0 ∧ ¬ weekday (addDays b 1) = 0)
      ∧ (weekday b = 6 → adjust_for_weekend b = addDays b 1
          ∧ weekday (addDays b 1) = 0)
      ∧ weekday b < 7 := by
  intro b hb
  have hlt7 : weekday b < 7 := Nat.mod_lt _ (by norm_num)
  have h1 := (toOrdinal_addDays 1 b hb).1
  have h2 := (toOrdinal_addDays 2 b hb).1
  refine ⟨fun h5 => ?_, fun h5 => ?_, fun h6 => ?_, hlt7⟩
  · unfold adjust_for_weekend
    rw [if_neg (by omega)]
  · refine ⟨?_, ?_, ?_⟩
    · unfold adjust_for_weekend find_next_weekday
      rw [if_pos (by omega), h5]
      rfl
    · unfold weekday at h5 ⊢
      rw [h2]
      omega
    · unfold weekday at h5 ⊢
      rw [h1]
      omega
  · refine ⟨?_, ?_⟩
    · unfold adjust_for_weekend find_next_weekday
      rw [if_pos (by omega), h6]
      rfl
    · unfold weekday at h6 ⊢
      rw [h1]
      omega

/-- Claim C2, witness: 2024-01-06 is a Saturday; the congratulation date
becomes 2024-01-08, the following Monday. -/
theorem claim2_adjust_for_weekend_witness :
    adjust_for_weekend (PyDate.mk 2024 1 6) = PyDate.mk 2024 1 8
    ∧ weekday (PyDate.mk 2024 1 8) = 0 := by
  have h := (claim2_adjust_for_weekend (PyDate.mk 2024 1 6) (by decide)).2.1 (by decide)
  have ha : addDays (PyDate.mk 2024 1 6) 2 = PyDate.mk 2024 1 8 := by decide
  exact ⟨h.1.trans ha, ha ▸ h.2.1⟩

/-! ## Upcoming-birthday inclusion (claim C1) -/

theorem mkDate_ok_elim {y m d : Nat} {p : PyDate} (h : mkDate y m d = Except.ok p) :
    p = PyDate.mk y m d := by
  unfold mkDate at h
  split_ifs at h
  exact (Except.ok.inj h).symm

/-- Claim C1: whenever the year projections of a stored birthday succeed,
the loop body of `get_upcoming_birthdays` includes the record exactly when
`0 ≤ thisYear - referenceDate ≤ windowDays` (in days, both ends inclusive);
the same-year projection is the birthday with the reference year
substituted, and it is advanced by exactly one year — never more — if and
only if it is strictly earlier than the reference date. -/
theorem claim1_upcoming_inclusion :
    ∀ (r : Record) (bd today : PyDate) (days : Nat) (p ty : PyDate),
      r.birthday = some bd →
      replaceYear bd today.year = Except.ok p →
      codeThisYear bd today = Except.ok ty →
      processRecord today days r =
        Except.ok
          (if 0 ≤ (toOrdinal ty : Int) - (toOrdinal today : Int) ∧
              (toOrdinal ty : Int) - (toOrdinal today : Int) ≤ (days : Int)
           then some (UpcomingEntry.mk r.name (renderDate (adjust_for_weekend ty)))
           else none)
      ∧ p = PyDate.mk today.year bd.month bd.day
      ∧ ty = (if PyDate.lt p today = true
              then PyDate.mk (today.year + 1) bd.month bd.day else p) := by
  intro r bd today days p ty hbd hp hty
  have hpshape : p = PyDate.mk today.year bd.month bd.day := mkDate_ok_elim hp
  have htyshape : ty = (if PyDate.lt p today = true
      then PyDate.mk (today.year + 1) bd.month bd.day else p) := by
    unfold codeThisYear at hty
    rw [hp] at hty
    by_cases hlt : PyDate.lt p today = true
    · rw [if_pos hlt]
      simp only [hlt, if_true] at hty
      exact mkDate_ok_elim hty
    · rw [if_neg hlt]
      simp only [hlt, if_false] at hty
      exact (Except.ok.inj hty).symm
  refine ⟨?_, hpshape, htyshape⟩
  simp only [processRecord, hbd, hty]
  split_ifs <;> rfl

/-- Claim C1, witness: against reference date 2024-01-01 with a 7-day
window, a birthday of 03.01.1990 projects to 2024-01-03 (delta 2, included,
no weekend shift) while 25.12.1990 projects to 2024-12-25 without rolling
(it is not strictly earlier than the reference date), delta 359, excluded. -/
theorem claim1_upcoming_inclusion_witness :
    processRecord (PyDate.mk 2024 1 1) 7 (Record.mk "Ann" [] (some (PyDate.mk 1990 1 3)))
      = Except.ok (some (UpcomingEntry.mk "Ann" "03.01.2024"))
    ∧ processRecord (PyDate.mk 2024 1 1) 7 (Record.mk "Bob" [] (some (PyDate.mk 1990 12 25)))
      = Except.ok none := by
  constructor
  · have h := claim1_upcoming_inclusion
      (Record.mk "Ann" [] (some (PyDate.mk 1990 1 3))) (PyDate.mk 1990 1 3)
      (PyDate.mk 2024 1 1) 7 (PyDate.mk 2024 1 3) (PyDate.mk 2024 1 3) rfl rfl rfl
    rw [h.1]
    decide
  · have h := claim1_upcoming_inclusion
      (Record.mk "Bob" [] (some (PyDate.mk 1990 12 25))) (PyDate.mk 1990 12 25)
      (PyDate.mk 2024 1 1) 7 (PyDate.mk 2024 12 25) (PyDate.mk 2024 12 25) rfl rfl rfl
    rw [h.1]
    decide

/-! ## Birthday parsing (claim C5) -/

end Task7
